import Mathlib

/-
  Verification of the dash-mcp-server connection / query layer
  (src/dash_mcp_server/server.py) against its specification.

  The Python source is shallowly embedded as executable Lean definitions:
  strings are lists of characters, every outbound effect (process probe,
  application launch, settings write, settle sleep, status-file read,
  health probe, HTTP request) is recorded in an explicit action trace,
  and the outcomes of external collaborators (the OS, the status file,
  the Dash HTTP API) are supplied as oracle inputs, so each embedded
  operation is a pure function of its arguments and the oracle.
-/

set_option autoImplicit false

/-! ### Character classes used by the sanitizer

The Python code classifies characters three ways: the regex class
checked by the trailing-whitespace pass is exactly a space or a tab;
the newline character drives the blank-line collapse; and the
whole-document trim uses the Python str.strip whitespace class, of
which the ASCII members are space, tab, newline, carriage return,
vertical tab and form feed (non-ASCII Unicode spaces are outside the
alphabet modelled here). -/

def isPyWs (c : Char) : Bool :=
  decide (c = ' ' ∨ c = '\t' ∨ c = '\n' ∨ c = '\r' ∨ c = '\x0b' ∨ c = '\x0c')

/-- A Python string is falsy after .strip() exactly when every character
is whitespace. -/
def blankStr (l : List Char) : Bool := l.all isPyWs

/-! ### The whitespace post-processing of fetch_documentation_content

The source applies, in order:
1. re.sub of three-or-more consecutive newlines by exactly two,
2. re.sub (MULTILINE) deleting runs of spaces/tabs that sit
   immediately before a newline or at the end of the string,
3. str.strip() of the whole document. -/

/-- Emit a maximal run of `k` newlines after the collapse pass: a run of
three or more newlines becomes two, shorter runs are kept. -/
def emitNl (k : Nat) : List Char :=
  List.replicate (if 3 ≤ k then 2 else k) '\n'

/-- Collapse pass; `k` counts the newlines of the run currently being
scanned. -/
def collapse3Aux : Nat → List Char → List Char
  | k, [] => emitNl k
  | k, c :: r =>
    if c = '\n' then collapse3Aux (k + 1) r
    else emitNl k ++ c :: collapse3Aux 0 r

/-- `re.sub(r'\n{3,}', '\n\n', s)`. -/
def collapse3 (l : List Char) : List Char := collapse3Aux 0 l

/-- Trailing-whitespace pass; `p` is the (reversed) run of spaces/tabs
whose fate is still undecided. -/
def stripTrailAux : List Char → List Char → List Char
  | _, [] => []
  | p, c :: r =>
    if c = ' ' ∨ c = '\t' then stripTrailAux (c :: p) r
    else if c = '\n' then '\n' :: stripTrailAux [] r
    else p.reverse ++ c :: stripTrailAux [] r

/-- `re.sub(r'[ \t]+$', '', s, flags=re.MULTILINE)`. -/
def stripTrail (l : List Char) : List Char := stripTrailAux [] l

/-- Left half of str.strip(). -/
def lstrip (l : List Char) : List Char := l.dropWhile isPyWs

/-- Right half of str.strip(). -/
def rstrip (l : List Char) : List Char := (l.reverse.dropWhile isPyWs).reverse

/-- Python str.strip(). -/
def pyStrip (l : List Char) : List Char := rstrip (lstrip l)

/-- The complete whitespace post-processing applied to the converted
markdown text in fetch_documentation_content. -/
def postProcess (l : List Char) : List Char := pyStrip (stripTrail (collapse3 l))

/-! ### Checkers for the two invariants of the post-processed text -/

/-- `nlOkAux k l = true` iff, assuming `k` newlines were just seen,
the text `l` never reaches a run of three consecutive newlines. -/
def nlOkAux : Nat → List Char → Bool
  | _, [] => true
  | k, c :: r =>
    if c = '\n' then (if 2 ≤ k then false else nlOkAux (k + 1) r)
    else nlOkAux 0 r

/-- No run of three or more consecutive newlines, i.e. no run of two or
more consecutive empty lines. -/
def nlOk (l : List Char) : Bool := nlOkAux 0 l

/-- `wsOkAux b l = true` iff no space or tab of `l` sits immediately
before a newline or before the end; `b` records whether the previous
character was a space or tab. -/
def wsOkAux : Bool → List Char → Bool
  | b, [] => !b
  | b, c :: r =>
    if c = ' ' ∨ c = '\t' then wsOkAux true r
    else if c = '\n' then (if b then false else wsOkAux false r)
    else wsOkAux false r

/-- No line of `l` carries trailing spaces or tabs (the fixed points of
`stripTrail`). -/
def wsOk (l : List Char) : Bool := wsOkAux false l

/-! ### The element-removal pass of fetch_documentation_content

BeautifulSoup is an external library; the parsed document is modelled
as a tree of text nodes and tagged elements, and the removal
loop of the source, which decomposes every script, style, nav and header element
(including nested ones found by find_all), is modelled as a recursive
filter over that tree. -/

inductive Html where
  | text (s : List Char)
  | elem (tag : List Char) (children : List Html)

/-- The tags removed by the source before markdown conversion. -/
def unwantedTags : List (List Char) :=
  [("script").toList, ("style").toList, ("nav").toList, ("header").toList]

mutual
/-- Removal of script/style/nav/header elements: the whole subtree of an
unwanted element is dropped (decompose), and removal recurses into the
children of every kept element (find_all searches the full tree). -/
def cleanNode : Html → Option Html
  | .text s => some (.text s)
  | .elem tag cs =>
    if tag ∈ unwantedTags then none else some (.elem tag (cleanList cs))

def cleanList : List Html → List Html
  | [] => []
  | h :: t =>
    match cleanNode h with
    | none => cleanList t
    | some h' => h' :: cleanList t
end

mutual
/-- True when no unwanted element remains anywhere in the tree. -/
def noUnwanted : Html → Bool
  | .text _ => true
  | .elem tag cs => decide (tag ∉ unwantedTags) && noUnwantedList cs

def noUnwantedList : List Html → Bool
  | [] => true
  | h :: t => noUnwanted h && noUnwantedList t
end

mutual
def cleanNode_sound : ∀ (t : Html) (u : Html), cleanNode t = some u → noUnwanted u = true
  | .text s, u, h => by
    simp only [cleanNode, Option.some.injEq] at h
    rw [← h]
    rfl
  | .elem tag cs, u, h => by
    by_cases hm : tag ∈ unwantedTags
    · simp [cleanNode, hm] at h
    · simp only [cleanNode, if_neg hm, Option.some.injEq] at h
      rw [← h]
      simp only [noUnwanted, Bool.and_eq_true, decide_eq_true_eq]
      exact ⟨hm, cleanList_sound cs⟩

def cleanList_sound : ∀ (l : List Html), noUnwantedList (cleanList l) = true
  | [] => rfl
  | h :: t => by
    cases hc : cleanNode h with
    | none => simp only [cleanList, hc]; exact cleanList_sound t
    | some h' =>
      simp only [cleanList, hc, noUnwantedList, Bool.and_eq_true]
      exact ⟨cleanNode_sound h h' hc, cleanList_sound t⟩
end

/-! ### estimate_tokens

The values reaching estimate_tokens are Python strings, lists, dicts
produced by json parsing or pydantic model_dump (so dict keys are
strings), and other leaves such as None or booleans, which Python
renders through str(); only the length of that rendering matters, so a
non-string leaf is modelled by it. -/

inductive PyVal where
  | str (s : List Char)
  | other (reprLen : Nat)
  | list (items : List PyVal)
  | dict (entries : List (List Char × PyVal))

mutual
/-- `estimate_tokens` from the source: strings weigh
`max(1, len(s) // 4)` (floor division), lists sum their items, dicts
sum key and value weights, any other leaf weighs
`max(1, len(str(obj)) // 4)`. -/
def estimate_tokens : PyVal → Nat
  | .str s => max 1 (s.length / 4)
  | .other n => max 1 (n / 4)
  | .list items => estList items
  | .dict entries => estDict entries

def estList : List PyVal → Nat
  | [] => 0
  | v :: vs => estimate_tokens v + estList vs

def estDict : List (List Char × PyVal) → Nat
  | [] => 0
  | (k, v) :: es => (max 1 (k.length / 4) + estimate_tokens v) + estDict es
end

mutual
/-- All string leaves of a value, dict keys included, in order. -/
def strLeaves : PyVal → List (List Char)
  | .str s => [s]
  | .other _ => []
  | .list items => strLeavesList items
  | .dict entries => strLeavesDict entries

def strLeavesList : List PyVal → List (List Char)
  | [] => []
  | v :: vs => strLeaves v ++ strLeavesList vs

def strLeavesDict : List (List Char × PyVal) → List (List Char)
  | [] => []
  | (k, v) :: es => k :: (strLeaves v ++ strLeavesDict es)
end

mutual
/-- All non-string leaves of a value, by rendered length, in order. -/
def numLeaves : PyVal → List Nat
  | .str _ => []
  | .other n => [n]
  | .list items => numLeavesList items
  | .dict entries => numLeavesDict entries

def numLeavesList : List PyVal → List Nat
  | [] => []
  | v :: vs => numLeaves v ++ numLeavesList vs

def numLeavesDict : List (List Char × PyVal) → List Nat
  | [] => []
  | (_, v) :: es => numLeaves v ++ numLeavesDict es
end

/-- The per-string weight the source actually computes: character count
divided by four rounding down, with a minimum of one. -/
def floorWeight (n : Nat) : Nat := max 1 (n / 4)

/-- The per-string weight the claim asserts: character count divided by
four rounding up, with a minimum of one. -/
def ceilWeight (n : Nat) : Nat := max 1 ((n + 3) / 4)

/-! ### The result budgeting loop

Both list_installed_docsets and search_documentation run the same
loop: a running total starts at the base overhead, and each item in
original order is appended only if adding its estimated weight keeps
the total within the limit; the first item that would push the total
past the limit stops the loop. -/

def limitItems {α : Type} (w : α → Nat) (limit : Nat) : Nat → List α → List α
  | _, [] => []
  | cur, x :: rest =>
    if limit < cur + w x then []
    else x :: limitItems w limit (cur + w x) rest

/-! ### The lifecycle and operation trace model

Every outbound effect of the Python code is recorded as an action;
the model of each operation returns its result together with the exact
list of actions performed, so at-most-once and no-network claims are
statements about that list. -/

inductive Act where
  | pgrep
  | launchApp (variant : Nat)
  | writeEnable (variant : Nat)
  | settleSleep (secs : Nat)
  | readStatus
  | probeHealth (port : Nat)
  | httpList
  | httpSearch
  | httpEnableFts
  | httpFetch
  deriving DecidableEq

/-- Occurrences of one action in a trace. -/
def countA (a : Act) : List Act → Nat
  | [] => 0
  | b :: t => (if b = a then 1 else 0) + countA a t

/-- The states the persisted status.json file can be in: absent
(FileNotFoundError), not decodable as JSON (json.JSONDecodeError, also
covering KeyError, both caught), decodable but not a JSON object (the
read of the port field then raises an uncaught AttributeError), or an
object whose port field is absent, null or an integer. -/
inductive StatusRecord where
  | missing
  | unparseable
  | nonObject
  | object (port : Option Nat)
  deriving DecidableEq

/-- One discovery attempt reads the status file and, when a port is
present, consults the health prober for that port. -/
structure DiscInput where
  record : StatusRecord
  probe : Nat → Bool

/-- Outcome of the first launch subprocess (run without check=True):
either the call raised (timeout and the like) or it completed with a
return code. -/
inductive LaunchOutcome where
  | exn
  | returned (code : Int)
  deriving DecidableEq

/-- Oracle for one operation invocation: process-check results, launch
and settings-write outcomes, the two discovery attempts (the file is
re-read each time), and the rendering of whatever exception text the
run produces where the code interpolates it into a message. -/
structure Env where
  runningBefore : Bool
  runningAfter : Bool
  primaryLaunch : LaunchOutcome
  fallbackLaunchOk : Bool
  firstDisc : DiscInput
  primaryWriteOk : Bool
  fallbackWriteOk : Bool
  secondDisc : DiscInput
  exnText : List Char

/-- get_dash_api_port: read status.json; on a missing, undecodable or
port-less record return None; a record that is not a JSON object makes
the port read raise an uncaught AttributeError (modelled as .error);
a present port is returned only when check_api_health confirms it. -/
def get_dash_api_port (d : DiscInput) : Except Unit (Option Nat) × List Act :=
  match d.record with
  | .missing => (Except.ok none, [Act.readStatus])
  | .unparseable => (Except.ok none, [Act.readStatus])
  | .nonObject => (Except.error (), [Act.readStatus])
  | .object none => (Except.ok none, [Act.readStatus])
  | .object (some p) =>
    (if d.probe p then Except.ok (some p) else Except.ok none,
     [Act.readStatus, Act.probeHealth p])

/-- ensure_dash_running: pgrep; if not running, launch the primary
bundle id, fall back to the Setapp bundle id when the first run
returns a nonzero code, sleep four seconds, and pgrep again; any
subprocess exception yields False. -/
def ensure_dash_running (e : Env) : Bool × List Act :=
  if e.runningBefore then (true, [Act.pgrep])
  else
    match e.primaryLaunch with
    | .exn => (false, [Act.pgrep, Act.launchApp 0])
    | .returned code =>
      if code ≠ 0 then
        if e.fallbackLaunchOk then
          (e.runningAfter,
           [Act.pgrep, Act.launchApp 0, Act.launchApp 1,
            Act.settleSleep 4, Act.pgrep])
        else (false, [Act.pgrep, Act.launchApp 0, Act.launchApp 1])
      else
        (e.runningAfter,
         [Act.pgrep, Act.launchApp 0, Act.settleSleep 4, Act.pgrep])

/-- working_api_base_url: ensure Dash runs, discover the port; when
discovery finds nothing, write the enable-API setting for both bundle
ids, sleep two seconds and re-discover once; a base url is returned
exactly when some discovery attempt returned a live port. The first
discovery runs outside the remediation try block, so its AttributeError
propagates (.error); the second discovery runs inside it, so the same
failure is swallowed into None. -/
def working_api_base_url (e : Env) : Except Unit (Option Nat) × List Act :=
  let er := ensure_dash_running e
  if er.1 = false then (Except.ok none, er.2)
  else
    let d0 := get_dash_api_port e.firstDisc
    match d0.1 with
    | .error _ => (Except.error (), er.2 ++ d0.2)
    | .ok (some p) => (Except.ok (some p), er.2 ++ d0.2)
    | .ok none =>
      if e.primaryWriteOk = false then
        (Except.ok none, er.2 ++ d0.2 ++ [Act.writeEnable 0])
      else if e.fallbackWriteOk = false then
        (Except.ok none, er.2 ++ d0.2 ++ [Act.writeEnable 0, Act.writeEnable 1])
      else
        let d1 := get_dash_api_port e.secondDisc
        match d1.1 with
        | .error _ =>
          (Except.ok none,
           er.2 ++ d0.2 ++
             [Act.writeEnable 0, Act.writeEnable 1, Act.settleSleep 2] ++ d1.2)
        | .ok v =>
          (Except.ok v,
           er.2 ++ d0.2 ++
             [Act.writeEnable 0, Act.writeEnable 1, Act.settleSleep 2] ++ d1.2)

/-! ### Message strings and substring matching -/

/-- `startsWithS n h` holds when `n` is an initial segment of `h`. -/
def startsWithS : List Char → List Char → Bool
  | [], _ => true
  | _ :: _, [] => false
  | a :: n, b :: h => if a = b then startsWithS n h else false

/-- The Python substring test `n in h`. -/
def containsS (n : List Char) : List Char → Bool
  | [] => startsWithS n []
  | c :: h => startsWithS n (c :: h) || containsS n h

def verifyCore : List Char :=
  ("Please ensure Dash is running and the API server is enabled (in Dash Settings > Integration).").toList

/-- The ". Please ensure ..." tail appended to several error messages. -/
def verifyTail : List Char := (". ").toList ++ verifyCore

def connectErrorMsg : List Char :=
  ("Failed to connect to Dash API Server. Please ensure Dash is running and the API server is enabled (in Dash Settings > Integration).").toList

def emptyQueryMsg : List Char := ("Query cannot be empty").toList

def emptyIdsMsg : List Char :=
  ("docset_identifiers cannot be empty. Get the docset identifiers using list_installed_docsets").toList

def rangeMsg : List Char := ("max_results must be between 1 and 1000").toList

def unknownDocsetMsg : List Char :=
  ("Invalid docset identifier. Run list_installed_docsets to see available docsets, then use the exact identifier from that list.").toList

def noValidDocsetsMsg : List Char :=
  ("No valid docsets found for search. Either provide valid docset identifiers from list_installed_docsets, or set search_snippets=true to search snippets only.").toList

def trialExpiredMsg : List Char :=
  ("Your Dash trial has expired. Purchase Dash at https://kapeli.com/dash to continue using the API. During trial expiration, API access is blocked.").toList

def docsetIdPhrase : List Char := ("Docset with identifier").toList

def notFoundPhrase : List Char := ("not found").toList

def noDocsetsPhrase : List Char := ("No docsets found").toList

def trialPhrase : List Char := ("API access blocked due to Dash trial expiration").toList

/-- The error message search_documentation builds from an HTTPStatusError:
the 400 body is matched for the unknown-docset and no-docsets phrases,
the 403 body for the trial-expiration phrase, and everything else falls
to the generic message; `exnText` renders the exception where the code
interpolates it. -/
def searchErrorMsg (status : Nat) (body exnText : List Char) : List Char :=
  if status = 400 then
    if containsS docsetIdPhrase body = true ∧ containsS notFoundPhrase body = true then
      unknownDocsetMsg
    else if containsS noDocsetsPhrase body = true then noValidDocsetsMsg
    else ("Bad request: ").toList ++ body ++ verifyTail
  else if status = 403 then
    if containsS trialPhrase body = true then trialExpiredMsg
    else ("Forbidden: ").toList ++ body ++ verifyTail
  else ("HTTP error: ").toList ++ exnText ++ verifyTail

/-! ### The four public operations -/

structure DocsetResult where
  name : List Char
  identifier : List Char
  platform : List Char
  full_text_search : List Char
  notice : Option (List Char)
  deriving DecidableEq

structure DocsetResults where
  docsets : List DocsetResult
  error : Option (List Char)
  deriving DecidableEq

structure SearchResult where
  name : List Char
  type : List Char
  platform : Option (List Char)
  load_url : List Char
  docset : Option (List Char)
  description : Option (List Char)
  language : Option (List Char)
  tags : Option (List Char)
  deriving DecidableEq

structure SearchResults where
  results : List SearchResult
  error : Option (List Char)
  deriving DecidableEq

structure DocumentationContent where
  load_url : List Char
  title : List Char
  content : List Char
  error : Option (List Char)
  deriving DecidableEq

/-- str(None) has four characters, which is how a None field weighs in. -/
def noneVal : PyVal := PyVal.other 4

def optField : Option (List Char) → PyVal
  | none => noneVal
  | some s => PyVal.str s

/-- model_dump of a DocsetResult, in field order. -/
def dumpDocset (d : DocsetResult) : PyVal :=
  PyVal.dict
    [(("name").toList, PyVal.str d.name),
     (("identifier").toList, PyVal.str d.identifier),
     (("platform").toList, PyVal.str d.platform),
     (("full_text_search").toList, PyVal.str d.full_text_search),
     (("notice").toList, optField d.notice)]

/-- model_dump of a SearchResult, in field order. -/
def dumpSearch (r : SearchResult) : PyVal :=
  PyVal.dict
    [(("name").toList, PyVal.str r.name),
     (("type").toList, PyVal.str r.type),
     (("platform").toList, optField r.platform),
     (("load_url").toList, PyVal.str r.load_url),
     (("docset").toList, optField r.docset),
     (("description").toList, optField r.description),
     (("language").toList, optField r.language),
     (("tags").toList, optField r.tags)]

/-- Outcome of the docsets/list request. -/
inductive ListResp where
  | exn (msg : List Char)
  | httpError (status : Nat) (exnText : List Char)
  | ok (docsets : List DocsetResult)

/-- list_installed_docsets. -/
def list_installed_docsets (e : Env) (resp : ListResp) : DocsetResults × List Act :=
  let w := working_api_base_url e
  match w.1 with
  | .error _ =>
    (⟨[], some (("Failed to get installed docsets: ").toList ++ e.exnText)⟩, w.2)
  | .ok none => (⟨[], some connectErrorMsg⟩, w.2)
  | .ok (some _) =>
    let t := w.2 ++ [Act.httpList]
    match resp with
    | .exn m => (⟨[], some (("Failed to get installed docsets: ").toList ++ m)⟩, t)
    | .httpError status exnText =>
      if status = 404 then
        (⟨[], some (("No docsets found. Instruct the user to install some docsets in Settings > Downloads.").toList)⟩, t)
      else (⟨[], some (("HTTP error: ").toList ++ exnText)⟩, t)
    | .ok ds =>
      (⟨limitItems (fun d => estimate_tokens (dumpDocset d)) 25000 100 ds, none⟩, t)

/-- Outcome of the search request. -/
inductive SearchResp where
  | exn (msg : List Char)
  | httpError (status : Nat) (body exnText : List Char)
  | ok (message : Option (List Char)) (results : List SearchResult)

/-- search_documentation: validation first (returning without any
action), then the lifecycle ladder, then the request, the error
mapping, and the budgeting loop; an advisory message from the server
is surfaced in the error field next to the hits. -/
def search_documentation (query docset_identifiers : List Char) (max_results : Int)
    (e : Env) (resp : SearchResp) : SearchResults × List Act :=
  if blankStr query = true then (⟨[], some emptyQueryMsg⟩, [])
  else if blankStr docset_identifiers = true then (⟨[], some emptyIdsMsg⟩, [])
  else if max_results < 1 ∨ 1000 < max_results then (⟨[], some rangeMsg⟩, [])
  else
    let w := working_api_base_url e
    match w.1 with
    | .error _ =>
      (⟨[], some (("Search failed: ").toList ++ e.exnText ++ verifyTail)⟩, w.2)
    | .ok none => (⟨[], some connectErrorMsg⟩, w.2)
    | .ok (some _) =>
      let t := w.2 ++ [Act.httpSearch]
      match resp with
      | .exn m => (⟨[], some (("Search failed: ").toList ++ m ++ verifyTail)⟩, t)
      | .httpError status body exnText =>
        (⟨[], some (searchErrorMsg status body exnText)⟩, t)
      | .ok message results =>
        (⟨limitItems (fun r => estimate_tokens (dumpSearch r)) 25000 100 results,
          message⟩, t)

/-- Outcome of the enable_fts request: okJson is a success status with
a JSON-decodable body; badJson is a success status whose body fails
response.json(), which the broad except turns into False. -/
inductive FtsResp where
  | exn (msg : List Char)
  | httpError (status : Nat) (body : List Char)
  | okJson
  | badJson

/-- enable_docset_fts. -/
def enable_docset_fts (identifier : List Char) (e : Env) (resp : FtsResp) :
    Bool × List Act :=
  if blankStr identifier = true then (false, [])
  else
    let w := working_api_base_url e
    match w.1 with
    | .error _ => (false, w.2)
    | .ok none => (false, w.2)
    | .ok (some _) =>
      let t := w.2 ++ [Act.httpEnableFts]
      match resp with
      | .okJson => (true, t)
      | _ => (false, t)

/-- Outcome of fetching the document body; ok carries the extracted
title, if a title element exists, and the markdown conversion of the
cleaned soup, both boundary outputs of the external parser and
converter. -/
inductive FetchResp where
  | exn (msg : List Char)
  | httpError (status : Nat) (statusText : List Char)
  | ok (title : Option (List Char)) (converted : List Char)

/-- Decimal rendering of a natural number. -/
def natDigitsAux : Nat → Nat → List Char → List Char
  | 0, _, acc => acc
  | fuel + 1, n, acc =>
    let d := Char.ofNat (48 + n % 10)
    if n < 10 then d :: acc else natDigitsAux fuel (n / 10) (d :: acc)

def natDigits (n : Nat) : List Char := natDigitsAux (n + 1) n []

/-- fetch_documentation_content: blank locator short-circuits; the
fetched body is cleaned, converted and post-processed; HTTP and other
errors become an Error-titled value with empty content; load_url is
echoed on every path and no exception escapes. -/
def fetch_documentation_content (load_url : List Char) (resp : FetchResp) :
    DocumentationContent × List Act :=
  if blankStr load_url = true then
    (⟨load_url, ("Error").toList, [], some (("load_url cannot be empty").toList)⟩, [])
  else
    match resp with
    | .exn m =>
      (⟨load_url, ("Error").toList, [],
        some (("Failed to fetch content: ").toList ++ m)⟩, [Act.httpFetch])
    | .httpError status statusText =>
      (⟨load_url, ("Error").toList, [],
        some ((("HTTP error ").toList ++ natDigits status ++ (": ").toList ++ statusText))⟩,
       [Act.httpFetch])
    | .ok title converted =>
      (⟨load_url, title.getD (("Documentation").toList), postProcess converted, none⟩,
       [Act.httpFetch])

mutual
def est_eq_spec : ∀ (v : PyVal), estimate_tokens v =
    ((strLeaves v).map (fun s => floorWeight s.length)).sum +
    ((numLeaves v).map floorWeight).sum
  | .str s => by
    simp [estimate_tokens, strLeaves, numLeaves, floorWeight]
  | .other n => by
    simp [estimate_tokens, strLeaves, numLeaves, floorWeight]
  | .list items => by
    simp only [estimate_tokens, strLeaves, numLeaves]
    exact estList_eq_spec items
  | .dict entries => by
    simp only [estimate_tokens, strLeaves, numLeaves]
    exact estDict_eq_spec entries

def estList_eq_spec : ∀ (l : List PyVal), estList l =
    ((strLeavesList l).map (fun s => floorWeight s.length)).sum +
    ((numLeavesList l).map floorWeight).sum
  | [] => rfl
  | v :: vs => by
    simp only [estList, strLeavesList, numLeavesList, List.map_append, List.sum_append]
    rw [est_eq_spec v, estList_eq_spec vs]
    omega

def estDict_eq_spec : ∀ (l : List (List Char × PyVal)), estDict l =
    ((strLeavesDict l).map (fun s => floorWeight s.length)).sum +
    ((numLeavesDict l).map floorWeight).sum
  | [] => rfl
  | (k, v) :: es => by
    simp only [estDict, strLeavesDict, numLeavesDict, List.map_cons, List.sum_cons,
      List.map_append, List.sum_append]
    rw [est_eq_spec v, estDict_eq_spec es]
    simp only [floorWeight]
    omega
end

/-- A concrete oracle: Dash already running, the status file names a
live port 1234, so no launch and no remediation happens. -/
def envW : Env where
  runningBefore := true
  runningAfter := true
  primaryLaunch := LaunchOutcome.returned 0
  fallbackLaunchOk := true
  firstDisc := ⟨StatusRecord.object (some 1234), fun _ => true⟩
  primaryWriteOk := true
  fallbackWriteOk := true
  secondDisc := ⟨StatusRecord.missing, fun _ => true⟩
  exnText := []

/-- The per-invocation lifecycle bound: each launch variant at most
once, each enable-API settings write at most once, and a hard ceiling
on the number of outbound effects. -/
def opSafe (t : List Act) : Prop :=
  countA (Act.launchApp 0) t ≤ 1 ∧ countA (Act.launchApp 1) t ≤ 1 ∧
  countA (Act.writeEnable 0) t ≤ 1 ∧ countA (Act.writeEnable 1) t ≤ 1 ∧
  t.length ≤ 13


/-! ### Proofs -/

/-! ### Lemmas about the two checkers -/

theorem nlOkAux_mono : ∀ (l : List Char) (j k : Nat), j ≤ k →
    nlOkAux k l = true → nlOkAux j l = true := by
  intro l
  induction l with
  | nil => intro j k _ _; rfl
  | cons c r ih =>
    intro j k hjk h
    by_cases hc : c = '\n'
    · simp only [nlOkAux, if_pos hc] at h ⊢
      by_cases h2 : 2 ≤ k
      · rw [if_pos h2] at h; exact absurd h (by simp)
      · rw [if_neg h2] at h
        rw [if_neg (fun hj => h2 (le_trans hj hjk))]
        exact ih (j + 1) (k + 1) (Nat.succ_le_succ hjk) h
    · simp only [nlOkAux, if_neg hc] at h ⊢; exact h

theorem nlOkAux_append_left : ∀ (y rest : List Char) (k : Nat),
    nlOkAux k (y ++ rest) = true → nlOkAux k y = true := by
  intro y
  induction y with
  | nil => intro rest k _; rfl
  | cons c r ih =>
    intro rest k h
    by_cases hc : c = '\n'
    · simp only [List.cons_append, nlOkAux, if_pos hc] at h ⊢
      by_cases h2 : 2 ≤ k
      · rw [if_pos h2] at h; exact absurd h (by simp)
      · rw [if_neg h2] at h ⊢; exact ih rest (k + 1) h
    · simp only [List.cons_append, nlOkAux, if_neg hc] at h ⊢
      exact ih rest 0 h

theorem nlOk_append_right : ∀ (u s : List Char), nlOk (u ++ s) = true → nlOk s = true := by
  intro u
  induction u with
  | nil => intro s h; exact h
  | cons c r ih =>
    intro s h
    apply ih
    by_cases hc : c = '\n'
    · simp only [nlOk, List.cons_append, nlOkAux, if_pos hc] at h
      rw [if_neg (by omega)] at h
      exact nlOkAux_mono (r ++ s) 0 1 (by omega) h
    · simp only [nlOk, List.cons_append, nlOkAux, if_neg hc] at h
      exact h

theorem wsOkAux_weaken : ∀ (l : List Char), wsOkAux true l = true → wsOkAux false l = true := by
  intro l h
  match l with
  | [] => exact absurd h (by simp [wsOkAux])
  | c :: r =>
    by_cases hb : c = ' ' ∨ c = '\t'
    · simp only [wsOkAux, if_pos hb] at h ⊢; exact h
    · by_cases hc : c = '\n'
      · simp only [wsOkAux, if_neg hb, if_pos hc] at h
        exact absurd h (by simp)
      · simp only [wsOkAux, if_neg hb, if_neg hc] at h ⊢; exact h

theorem wsOk_append_right : ∀ (u s : List Char), wsOk (u ++ s) = true → wsOk s = true := by
  intro u
  induction u with
  | nil => intro s h; exact h
  | cons c r ih =>
    intro s h
    apply ih
    by_cases hb : c = ' ' ∨ c = '\t'
    · simp only [wsOk, List.cons_append, wsOkAux, if_pos hb] at h
      exact wsOkAux_weaken (r ++ s) h
    · by_cases hc : c = '\n'
      · simp only [wsOk, List.cons_append, wsOkAux, if_neg hb, if_pos hc] at h
        simpa using h
      · simp only [wsOk, List.cons_append, wsOkAux, if_neg hb, if_neg hc] at h
        exact h

theorem wsOkAux_keep_last : ∀ (z : List Char) (c : Char) (rest : List Char) (b : Bool),
    ¬(c = ' ' ∨ c = '\t') → wsOkAux b (z ++ c :: rest) = true →
    wsOkAux b (z ++ [c]) = true := by
  intro z
  induction z with
  | nil =>
    intro c rest b hbl h
    by_cases hc : c = '\n'
    · simp only [List.nil_append, wsOkAux, if_neg hbl, if_pos hc] at h ⊢
      cases b with
      | true => exact absurd h (by simp)
      | false => rfl
    · simp only [List.nil_append, wsOkAux, if_neg hbl, if_neg hc] at h ⊢; rfl
  | cons d z' ih =>
    intro c rest b hbl h
    by_cases hdb : d = ' ' ∨ d = '\t'
    · simp only [List.cons_append, wsOkAux, if_pos hdb] at h ⊢
      exact ih c rest true hbl h
    · by_cases hdn : d = '\n'
      · simp only [List.cons_append, wsOkAux, if_neg hdb, if_pos hdn] at h ⊢
        cases b with
        | true => exact absurd h (by simp)
        | false =>
          simp only [Bool.false_eq_true, if_false] at h ⊢
          exact ih c rest false hbl h
      · simp only [List.cons_append, wsOkAux, if_neg hdb, if_neg hdn] at h ⊢
        exact ih c rest false hbl h

theorem nlOk_replicate (m : Nat) (hm : m ≤ 2) : nlOk (List.replicate m '\n') = true := by
  interval_cases m <;> decide

theorem nlOk_replicate_cons (m : Nat) (hm : m ≤ 2) (c : Char) (hc : ¬ c = '\n')
    (x : List Char) :
    nlOkAux 0 (List.replicate m '\n' ++ c :: x) = nlOkAux 0 x := by
  interval_cases m <;>
    simp [List.replicate_succ, nlOkAux, if_neg hc]

theorem emitNl_le_two (k : Nat) : (if 3 ≤ k then 2 else k) ≤ 2 ∨ 3 ≤ k := by
  by_cases h : 3 ≤ k
  · right; exact h
  · left; simp [if_neg h]; omega

theorem collapse3Aux_nlOk : ∀ (l : List Char) (k : Nat), nlOk (collapse3Aux k l) = true := by
  intro l
  induction l with
  | nil =>
    intro k
    show nlOk (emitNl k) = true
    unfold emitNl
    apply nlOk_replicate
    by_cases h : 3 ≤ k
    · simp [if_pos h]
    · simp [if_neg h]; omega
  | cons c r ih =>
    intro k
    by_cases hc : c = '\n'
    · simp only [collapse3Aux, if_pos hc]; exact ih (k + 1)
    · simp only [collapse3Aux, if_neg hc]
      unfold nlOk emitNl
      rw [nlOk_replicate_cons _ (by split <;> omega) c hc]
      exact ih 0

theorem collapse3Aux_fixed : ∀ (l : List Char) (k : Nat), k ≤ 2 →
    nlOkAux k l = true → collapse3Aux k l = List.replicate k '\n' ++ l := by
  intro l
  induction l with
  | nil =>
    intro k hk _
    simp only [collapse3Aux, emitNl, if_neg (by omega : ¬ 3 ≤ k), List.append_nil]
  | cons c r ih =>
    intro k hk h
    by_cases hc : c = '\n'
    · simp only [nlOkAux, if_pos hc] at h
      have h2 : ¬ 2 ≤ k := by
        intro h2; rw [if_pos h2] at h; exact absurd h (by simp)
      rw [if_neg h2] at h
      simp only [collapse3Aux, if_pos hc]
      rw [ih (k + 1) (by omega) h]
      rw [List.replicate_succ' k '\n', hc]
      simp
    · simp only [nlOkAux, if_neg hc] at h
      simp only [collapse3Aux, if_neg hc, emitNl, if_neg (by omega : ¬ 3 ≤ k)]
      rw [ih 0 (by omega) h]
      simp

theorem collapse3_fixed (l : List Char) (h : nlOk l = true) : collapse3 l = l := by
  have := collapse3Aux_fixed l 0 (by omega) h
  simpa [collapse3] using this

theorem wsOkAux_replicate_nl : ∀ (m : Nat) (y : List Char),
    wsOkAux false (List.replicate m '\n' ++ y) = wsOkAux false y := by
  intro m
  induction m with
  | zero => intro y; rfl
  | succ n ih =>
    intro y
    rw [List.replicate_succ]
    simp only [List.cons_append, wsOkAux, if_neg (by decide : ¬('\n' = ' ' ∨ '\n' = '\t')),
      if_pos rfl]
    simpa using ih y

theorem collapse3Aux_wsOk : ∀ (l : List Char) (b : Bool) (k : Nat),
    (b = true → k = 0) → wsOkAux b l = true → wsOkAux b (collapse3Aux k l) = true := by
  intro l
  induction l with
  | nil =>
    intro b k _ h
    cases b with
    | true => exact absurd h (by simp [wsOkAux])
    | false =>
      show wsOkAux false (emitNl k) = true
      unfold emitNl
      rw [← List.append_nil (List.replicate _ '\n'), wsOkAux_replicate_nl]
      rfl
  | cons c r ih =>
    intro b k hbk h
    by_cases hb : c = ' ' ∨ c = '\t'
    · simp only [wsOkAux, if_pos hb] at h
      simp only [collapse3Aux, if_neg (by rcases hb with hb | hb <;> simp [hb] : ¬ c = '\n')]
      cases b with
      | true =>
        rw [hbk rfl]
        simp only [emitNl, if_neg (by omega : ¬ 3 ≤ 0), List.replicate_zero, List.nil_append]
        simp only [wsOkAux, if_pos hb]
        exact ih true 0 (fun _ => rfl) h
      | false =>
        unfold emitNl
        rw [wsOkAux_replicate_nl]
        simp only [wsOkAux, if_pos hb]
        exact ih true 0 (fun _ => rfl) h
    · by_cases hc : c = '\n'
      · simp only [wsOkAux, if_neg hb, if_pos hc] at h
        cases b with
        | true => exact absurd h (by simp)
        | false =>
          simp only [Bool.false_eq_true, if_false] at h
          simp only [collapse3Aux, if_pos hc]
          exact ih false (k + 1) (by simp) h
      · simp only [wsOkAux, if_neg hb, if_neg hc] at h
        simp only [collapse3Aux, if_neg hc]
        cases b with
        | true =>
          rw [hbk rfl]
          simp only [emitNl, if_neg (by omega : ¬ 3 ≤ 0), List.replicate_zero, List.nil_append]
          simp only [wsOkAux, if_neg hb, if_neg hc]
          exact ih false 0 (by simp) h
        | false =>
          unfold emitNl
          rw [wsOkAux_replicate_nl]
          simp only [wsOkAux, if_neg hb, if_neg hc]
          exact ih false 0 (by simp) h

theorem collapse3_wsOk (l : List Char) (h : wsOk l = true) : wsOk (collapse3 l) = true :=
  collapse3Aux_wsOk l false 0 (by simp) h

theorem stripTrailAux_fixed : ∀ (l : List Char) (p : List Char),
    wsOkAux (!p.isEmpty) l = true → stripTrailAux p l = p.reverse ++ l := by
  intro l
  induction l with
  | nil =>
    intro p h
    cases p with
    | nil => rfl
    | cons x q => exact absurd h (by simp [wsOkAux])
  | cons c r ih =>
    intro p h
    by_cases hb : c = ' ' ∨ c = '\t'
    · simp only [wsOkAux, if_pos hb] at h
      simp only [stripTrailAux, if_pos hb]
      rw [ih (c :: p) (by simpa [wsOkAux] using h)]
      simp
    · by_cases hc : c = '\n'
      · simp only [wsOkAux, if_neg hb, if_pos hc] at h
        cases p with
        | cons x q => exact absurd h (by simp)
        | nil =>
          simp only [List.isEmpty_nil, Bool.not_true, Bool.false_eq_true, if_false] at h
          simp only [stripTrailAux, if_neg hb, if_pos hc]
          rw [ih [] (by simpa [wsOkAux] using h)]
          simp [hc]
      · simp only [wsOkAux, if_neg hb, if_neg hc] at h
        simp only [stripTrailAux, if_neg hb, if_neg hc]
        rw [ih [] (by simpa [wsOkAux] using h)]
        simp

theorem stripTrail_fixed (l : List Char) (h : wsOk l = true) : stripTrail l = l := by
  have := stripTrailAux_fixed l [] (by simpa [wsOk] using h)
  simpa [stripTrail] using this

theorem wsOkAux_blanks_append : ∀ (q : List Char), (∀ x ∈ q, x = ' ' ∨ x = '\t') →
    ∀ (c : Char) (x : List Char) (b : Bool), ¬(c = ' ' ∨ c = '\t') → ¬ c = '\n' →
    wsOkAux b (q ++ c :: x) = wsOkAux false x := by
  intro q
  induction q with
  | nil =>
    intro _ c x b hbl hc
    simp only [List.nil_append, wsOkAux, if_neg hbl, if_neg hc]
  | cons d q' ih =>
    intro hq c x b hbl hc
    have hd : d = ' ' ∨ d = '\t' := hq d (by simp)
    simp only [List.cons_append, wsOkAux, if_pos hd]
    exact ih (fun y hy => hq y (by simp [hy])) c x true hbl hc

theorem stripTrailAux_wsOk : ∀ (l : List Char) (p : List Char),
    (∀ x ∈ p, x = ' ' ∨ x = '\t') → wsOkAux false (stripTrailAux p l) = true := by
  intro l
  induction l with
  | nil => intro p _; rfl
  | cons c r ih =>
    intro p hp
    by_cases hb : c = ' ' ∨ c = '\t'
    · simp only [stripTrailAux, if_pos hb]
      exact ih (c :: p) (fun y hy => by
        rcases List.mem_cons.mp hy with hy | hy
        · exact hy ▸ hb
        · exact hp y hy)
    · by_cases hc : c = '\n'
      · simp only [stripTrailAux, if_neg hb, if_pos hc]
        have hr := ih [] (by simp)
        simp only [wsOkAux, if_neg (by decide : ¬('\n' = ' ' ∨ '\n' = '\t')), if_pos rfl]
        simpa using hr
      · simp only [stripTrailAux, if_neg hb, if_neg hc]
        rw [wsOkAux_blanks_append p.reverse
          (fun y hy => hp y (List.mem_reverse.mp hy)) c _ false hb hc]
        exact ih [] (by simp)

theorem stripTrail_wsOk (l : List Char) : wsOk (stripTrail l) = true :=
  stripTrailAux_wsOk l [] (by simp)

/-! ### Lemmas about str.strip() -/

theorem dropWhile_head_not : ∀ (p : Char → Bool) (l : List Char) (c : Char) (w : List Char),
    l.dropWhile p = c :: w → p c = false := by
  intro p l
  induction l with
  | nil => intro c w h; simp [List.dropWhile] at h
  | cons a l' ih =>
    intro c w h
    rw [List.dropWhile_cons] at h
    by_cases ha : p a = true
    · rw [if_pos ha] at h; exact ih c w h
    · rw [if_neg ha] at h
      cases h
      simpa using ha

theorem dropWhile_twice (p : Char → Bool) (l : List Char) :
    (l.dropWhile p).dropWhile p = l.dropWhile p := by
  cases hd : l.dropWhile p with
  | nil => rfl
  | cons c w =>
    rw [List.dropWhile_cons, if_neg (by simp [dropWhile_head_not p l c w hd])]

theorem rstrip_cases : ∀ (x : List Char), rstrip x = [] ∨
    ∃ z c rest, isPyWs c = false ∧ rstrip x = z ++ [c] ∧ x = (z ++ [c]) ++ rest := by
  intro x
  cases hd : x.reverse.dropWhile isPyWs with
  | nil => left; simp [rstrip, hd]
  | cons c w =>
    right
    refine ⟨w.reverse, c, (x.reverse.takeWhile isPyWs).reverse,
      dropWhile_head_not _ _ _ _ hd, by simp [rstrip, hd], ?_⟩
    have h2 : x.reverse.takeWhile isPyWs ++ x.reverse.dropWhile isPyWs = x.reverse :=
      List.takeWhile_append_dropWhile isPyWs x.reverse
    rw [hd] at h2
    have h3 := congrArg List.reverse h2
    simp only [List.reverse_append, List.reverse_cons, List.reverse_reverse] at h3
    exact h3.symm

theorem rstrip_wsOk (x : List Char) (h : wsOk x = true) : wsOk (rstrip x) = true := by
  rcases rstrip_cases x with he | ⟨z, c, rest, hc, hr, hx⟩
  · rw [he]; rfl
  · rw [hr]
    have hbl : ¬(c = ' ' ∨ c = '\t') := by
      rintro (rfl | rfl) <;> simp [isPyWs] at hc
    apply wsOkAux_keep_last z c rest false hbl
    rw [hx] at h
    simpa [wsOk] using h

theorem rstrip_nlOk (x : List Char) (h : nlOk x = true) : nlOk (rstrip x) = true := by
  rcases rstrip_cases x with he | ⟨z, c, rest, _, hr, hx⟩
  · rw [he]; rfl
  · rw [hr]
    rw [hx] at h
    exact nlOkAux_append_left (z ++ [c]) rest 0 h

theorem lstrip_wsOk (x : List Char) (h : wsOk x = true) : wsOk (lstrip x) = true := by
  apply wsOk_append_right (x.takeWhile isPyWs)
  show wsOk (x.takeWhile isPyWs ++ x.dropWhile isPyWs) = true
  rw [List.takeWhile_append_dropWhile isPyWs x]
  exact h

theorem lstrip_nlOk (x : List Char) (h : nlOk x = true) : nlOk (lstrip x) = true := by
  apply nlOk_append_right (x.takeWhile isPyWs)
  show nlOk (x.takeWhile isPyWs ++ x.dropWhile isPyWs) = true
  rw [List.takeWhile_append_dropWhile isPyWs x]
  exact h

theorem pyStrip_wsOk (x : List Char) (h : wsOk x = true) : wsOk (pyStrip x) = true :=
  rstrip_wsOk _ (lstrip_wsOk x h)

theorem pyStrip_nlOk (x : List Char) (h : nlOk x = true) : nlOk (pyStrip x) = true :=
  rstrip_nlOk _ (lstrip_nlOk x h)

theorem rstrip_twice (x : List Char) : rstrip (rstrip x) = rstrip x := by
  unfold rstrip
  rw [List.reverse_reverse, dropWhile_twice]

theorem lstrip_rstrip_lstrip (l : List Char) :
    lstrip (rstrip (lstrip l)) = rstrip (lstrip l) := by
  rcases rstrip_cases (lstrip l) with he | ⟨z, c, rest, hc, hr, hx⟩
  · rw [he]; rfl
  · rw [hr]
    cases z with
    | nil =>
      simp only [List.nil_append] at hr hx ⊢
      simp [lstrip, List.dropWhile_cons, hc]
    | cons d z' =>
      have hdx : lstrip l = d :: (z' ++ [c] ++ rest) := by simpa using hx
      have hd : isPyWs d = false := dropWhile_head_not isPyWs l d _ hdx
      simp [lstrip, List.dropWhile_cons, hd]

theorem pyStrip_twice (l : List Char) : pyStrip (pyStrip l) = pyStrip l := by
  show rstrip (lstrip (rstrip (lstrip l))) = rstrip (lstrip l)
  rw [lstrip_rstrip_lstrip, rstrip_twice]

theorem postProcess_of_wsOk (l : List Char) (h : wsOk l = true) :
    postProcess l = pyStrip (collapse3 l) := by
  unfold postProcess
  rw [stripTrail_fixed (collapse3 l) (collapse3_wsOk l h)]

theorem postProcess_wsOk (l : List Char) : wsOk (postProcess l) = true :=
  pyStrip_wsOk _ (stripTrail_wsOk (collapse3 l))

theorem postProcess_nlOk_of_wsOk (l : List Char) (h : wsOk l = true) :
    nlOk (postProcess l) = true := by
  rw [postProcess_of_wsOk l h]
  exact pyStrip_nlOk _ (collapse3Aux_nlOk l 0)

theorem postProcess_strip_twice (l : List Char) :
    pyStrip (postProcess l) = postProcess l :=
  pyStrip_twice _

theorem postProcess_idem_of_wsOk (l : List Char) (h : wsOk l = true) :
    postProcess (postProcess l) = postProcess l := by
  rw [postProcess_of_wsOk l h]
  have hws : wsOk (pyStrip (collapse3 l)) = true :=
    pyStrip_wsOk _ (collapse3_wsOk l h)
  have hnl : nlOk (pyStrip (collapse3 l)) = true :=
    pyStrip_nlOk _ (collapse3Aux_nlOk l 0)
  unfold postProcess
  rw [collapse3_fixed _ hnl, stripTrail_fixed _ hws, pyStrip_twice]

/-! ### Budget loop lemmas (claim C1) -/

theorem limitItems_front {α : Type} (w : α → Nat) (limit : Nat) :
    ∀ (l : List α) (cur : Nat), ∃ t, limitItems w limit cur l ++ t = l := by
  intro l
  induction l with
  | nil => intro cur; exact ⟨[], rfl⟩
  | cons x rest ih =>
    intro cur
    by_cases h : limit < cur + w x
    · exact ⟨x :: rest, by simp [limitItems, if_pos h]⟩
    · obtain ⟨t, ht⟩ := ih (cur + w x)
      exact ⟨t, by simp [limitItems, if_neg h, ht]⟩

theorem limitItems_sum {α : Type} (w : α → Nat) (limit : Nat) :
    ∀ (l : List α) (cur : Nat), cur ≤ limit →
    cur + ((limitItems w limit cur l).map w).sum ≤ limit := by
  intro l
  induction l with
  | nil => intro cur h; simpa [limitItems]
  | cons x rest ih =>
    intro cur h
    by_cases hx : limit < cur + w x
    · simpa [limitItems, if_pos hx]
    · have := ih (cur + w x) (by omega)
      simp only [limitItems, if_neg hx, List.map_cons, List.sum_cons]
      omega

theorem limitItems_cutoff {α : Type} (w : α → Nat) (limit : Nat) :
    ∀ (l : List α) (cur : Nat) (x : α) (r2 : List α),
    l.drop (limitItems w limit cur l).length = x :: r2 →
    limit < cur + ((limitItems w limit cur l).map w).sum + w x := by
  intro l
  induction l with
  | nil => intro cur x r2 h; exact absurd h (by simp [limitItems])
  | cons y rest ih =>
    intro cur x r2 h
    by_cases hy : limit < cur + w y
    · simp only [limitItems, if_pos hy, List.length_nil, List.drop_zero] at h ⊢
      cases h
      simpa using hy
    · simp only [limitItems, if_neg hy, List.length_cons, List.drop_succ_cons,
        List.map_cons, List.sum_cons] at h ⊢
      have := ih (cur + w y) x r2 h
      omega

/-- Claim C1: for every input sequence and every per-item weight
estimate, the budgeting loop shared by list_installed_docsets and
search_documentation (base overhead 100, limit 25000) returns an
order-preserving prefix of its input, so the returned count never
exceeds the total count, the overhead plus the weights of the returned
items stays within 25000, and the loop stops exactly at the first item
whose weight added to the running total would exceed the limit. -/
theorem c1_budget_loop {α : Type} (w : α → Nat) (l : List α) :
    limitItems w 25000 100 l <+: l ∧
    (limitItems w 25000 100 l).length ≤ l.length ∧
    100 + ((limitItems w 25000 100 l).map w).sum ≤ 25000 ∧
    (∀ (x : α) (r2 : List α),
      l.drop (limitItems w 25000 100 l).length = x :: r2 →
      25000 < 100 + ((limitItems w 25000 100 l).map w).sum + w x) := by
  obtain ⟨t, ht⟩ := limitItems_front w 25000 l 100
  refine ⟨⟨t, ht⟩, ?_, limitItems_sum w 25000 l 100 (by omega),
    fun x r2 hx => limitItems_cutoff w 25000 l 100 x r2 hx⟩
  have := congrArg List.length ht
  simp only [List.length_append] at this
  omega

/-- Witness for C1: with item weights 24000 and 2000, the loop keeps
the first item (total 24100) and stops at the second, which would push
the total to 26100. -/
theorem c1_budget_loop_witness :
    25000 < 100 + ((limitItems (fun x : Nat => x) 25000 100 [24000, 2000]).map
      (fun x : Nat => x)).sum + 2000 :=
  (c1_budget_loop (fun x : Nat => x) [24000, 2000]).2.2.2 2000 [] (by decide)

/-! ### Lifecycle trace lemmas (claim C2) -/

theorem countA_append (a : Act) : ∀ (l1 l2 : List Act),
    countA a (l1 ++ l2) = countA a l1 + countA a l2 := by
  intro l1 l2
  induction l1 with
  | nil => simp [countA]
  | cons b t ih => simp [countA, ih]; omega

theorem ensure_counts (e : Env) :
    countA (Act.launchApp 0) (ensure_dash_running e).2 ≤ 1 ∧
    countA (Act.launchApp 1) (ensure_dash_running e).2 ≤ 1 ∧
    countA (Act.writeEnable 0) (ensure_dash_running e).2 = 0 ∧
    countA (Act.writeEnable 1) (ensure_dash_running e).2 = 0 ∧
    (ensure_dash_running e).2.length ≤ 5 := by
  by_cases hr : e.runningBefore
  · simp only [ensure_dash_running, if_pos hr]; decide
  · cases hl : e.primaryLaunch with
    | exn => simp only [ensure_dash_running, if_neg hr, hl]; decide
    | returned code =>
      by_cases hc : code ≠ 0
      · by_cases hf : e.fallbackLaunchOk
        · simp only [ensure_dash_running, if_neg hr, hl, if_pos hc, if_pos hf]; decide
        · simp only [ensure_dash_running, if_neg hr, hl, if_pos hc, if_neg hf]; decide
      · simp only [ensure_dash_running, if_neg hr, hl, if_neg hc]; decide

theorem disc_counts (d : DiscInput) :
    countA (Act.launchApp 0) (get_dash_api_port d).2 = 0 ∧
    countA (Act.launchApp 1) (get_dash_api_port d).2 = 0 ∧
    countA (Act.writeEnable 0) (get_dash_api_port d).2 = 0 ∧
    countA (Act.writeEnable 1) (get_dash_api_port d).2 = 0 ∧
    (get_dash_api_port d).2.length ≤ 2 := by
  cases hr : d.record with
  | missing => simp only [get_dash_api_port, hr]; decide
  | unparseable => simp only [get_dash_api_port, hr]; decide
  | nonObject => simp only [get_dash_api_port, hr]; decide
  | object op =>
    cases op with
    | none => simp only [get_dash_api_port, hr]; decide
    | some p =>
      simp only [get_dash_api_port, hr]
      refine ⟨?_, ?_, ?_, ?_, by simp⟩ <;> simp [countA]

theorem work_counts (e : Env) :
    countA (Act.launchApp 0) (working_api_base_url e).2 ≤ 1 ∧
    countA (Act.launchApp 1) (working_api_base_url e).2 ≤ 1 ∧
    countA (Act.writeEnable 0) (working_api_base_url e).2 ≤ 1 ∧
    countA (Act.writeEnable 1) (working_api_base_url e).2 ≤ 1 ∧
    (working_api_base_url e).2.length ≤ 12 := by
  obtain ⟨e0, e1, ew0, ew1, el⟩ := ensure_counts e
  obtain ⟨a0, a1, aw0, aw1, al⟩ := disc_counts e.firstDisc
  obtain ⟨b0, b1, bw0, bw1, bl⟩ := disc_counts e.secondDisc
  simp only [working_api_base_url]
  split
  · refine ⟨e0, e1, ?_, ?_, ?_⟩
    · show countA (Act.writeEnable 0) (ensure_dash_running e).2 ≤ 1
      omega
    · show countA (Act.writeEnable 1) (ensure_dash_running e).2 ≤ 1
      omega
    · show (ensure_dash_running e).2.length ≤ 12
      omega
  · split
    · refine ⟨?_, ?_, ?_, ?_, ?_⟩ <;>
        simp only [countA_append, List.length_append] <;> omega
    · refine ⟨?_, ?_, ?_, ?_, ?_⟩ <;>
        simp only [countA_append, List.length_append] <;> omega
    · split
      · refine ⟨?_, ?_, ?_, ?_, ?_⟩ <;>
          simp only [countA_append, List.length_append] <;>
          simp [countA] <;> omega
      · split
        · refine ⟨?_, ?_, ?_, ?_, ?_⟩ <;>
            simp only [countA_append, List.length_append] <;>
            simp [countA] <;> omega
        · split <;>
            refine ⟨?_, ?_, ?_, ?_, ?_⟩ <;>
            simp only [countA_append, List.length_append] <;>
            simp [countA, countA_append] <;> omega

theorem opSafe_nil : opSafe [] := by
  refine ⟨?_, ?_, ?_, ?_, ?_⟩ <;> simp [countA]

theorem opSafe_work (e : Env) : opSafe ((working_api_base_url e).2) := by
  obtain ⟨h0, h1, h2, h3, h4⟩ := work_counts e
  exact ⟨h0, h1, h2, h3, by omega⟩

theorem opSafe_work_snoc (e : Env) (a : Act)
    (h : countA (Act.launchApp 0) [a] = 0 ∧ countA (Act.launchApp 1) [a] = 0 ∧
      countA (Act.writeEnable 0) [a] = 0 ∧ countA (Act.writeEnable 1) [a] = 0) :
    opSafe ((working_api_base_url e).2 ++ [a]) := by
  obtain ⟨h0, h1, h2, h3, h4⟩ := work_counts e
  obtain ⟨g0, g1, g2, g3⟩ := h
  refine ⟨?_, ?_, ?_, ?_, ?_⟩ <;>
    simp only [countA_append, List.length_append, List.length_cons, List.length_nil] <;>
    omega

theorem list_trace_shape (e : Env) (lr : ListResp) :
    (list_installed_docsets e lr).2 = (working_api_base_url e).2 ∨
    (list_installed_docsets e lr).2 = (working_api_base_url e).2 ++ [Act.httpList] := by
  simp only [list_installed_docsets]
  split
  · left; rfl
  · left; rfl
  · cases lr with
    | exn m => right; rfl
    | httpError s t =>
      by_cases hs : s = 404
      · right; simp [hs]
      · right; simp [hs]
    | ok ds => right; rfl

theorem search_trace_shape (q ids : List Char) (mr : Int) (e : Env) (sr : SearchResp) :
    (search_documentation q ids mr e sr).2 = [] ∨
    (search_documentation q ids mr e sr).2 = (working_api_base_url e).2 ∨
    (search_documentation q ids mr e sr).2 = (working_api_base_url e).2 ++ [Act.httpSearch] := by
  simp only [search_documentation]
  split
  · left; rfl
  · split
    · left; rfl
    · split
      · left; rfl
      · split
        · right; left; rfl
        · right; left; rfl
        · cases sr with
          | exn m => right; right; rfl
          | httpError s b t => right; right; rfl
          | ok m rs => right; right; rfl

theorem fts_trace_shape (ident : List Char) (e : Env) (fr : FtsResp) :
    (enable_docset_fts ident e fr).2 = [] ∨
    (enable_docset_fts ident e fr).2 = (working_api_base_url e).2 ∨
    (enable_docset_fts ident e fr).2 = (working_api_base_url e).2 ++ [Act.httpEnableFts] := by
  simp only [enable_docset_fts]
  split
  · left; rfl
  · split
    · right; left; rfl
    · right; left; rfl
    · cases fr with
      | exn m => right; right; rfl
      | httpError s b => right; right; rfl
      | okJson => right; right; rfl
      | badJson => right; right; rfl

theorem fetch_trace_shape (url : List Char) (pr : FetchResp) :
    (fetch_documentation_content url pr).2 = [] ∨
    (fetch_documentation_content url pr).2 = [Act.httpFetch] := by
  simp only [fetch_documentation_content]
  split
  · left; rfl
  · cases pr with
    | exn m => right; rfl
    | httpError s t => right; rfl
    | ok t c => right; rfl

theorem work_success_source (e : Env) (p : Nat)
    (h : (working_api_base_url e).1 = Except.ok (some p)) :
    (get_dash_api_port e.firstDisc).1 = Except.ok (some p) ∨
    (get_dash_api_port e.secondDisc).1 = Except.ok (some p) := by
  simp only [working_api_base_url] at h
  split at h
  · exact absurd h (by simp)
  · split at h
    · exact absurd h (by simp)
    · rename_i heq
      simp only [Prod.fst] at h
      cases h
      left; exact heq
    · split at h
      · exact absurd h (by simp)
      · split at h
        · exact absurd h (by simp)
        · split at h
          · exact absurd h (by simp)
          · rename_i heq
            simp only [Prod.fst] at h
            cases h
            right; exact heq

/-- Claim C2: in any invocation of any of the four public operations,
each launch variant is attempted at most once, the enable-API setting
is written at most once per application variant, the whole trace of
outbound effects is bounded (no retry loop under any oracle), and a
base url is only ever produced by the first discovery or by the single
remediation re-check, so once that re-check fails the operation has
returned absent with no further attempts. -/
theorem c2_lifecycle_once (e : Env) (q ids ident url : List Char) (mr : Int)
    (lr : ListResp) (sr : SearchResp) (fr : FtsResp) (pr : FetchResp) :
    opSafe ((list_installed_docsets e lr).2) ∧
    opSafe ((search_documentation q ids mr e sr).2) ∧
    opSafe ((enable_docset_fts ident e fr).2) ∧
    opSafe ((fetch_documentation_content url pr).2) ∧
    (∀ p, (working_api_base_url e).1 = Except.ok (some p) →
      (get_dash_api_port e.firstDisc).1 = Except.ok (some p) ∨
      (get_dash_api_port e.secondDisc).1 = Except.ok (some p)) := by
  refine ⟨?_, ?_, ?_, ?_, fun p hp => work_success_source e p hp⟩
  · rcases list_trace_shape e lr with h | h <;> rw [h]
    · exact opSafe_work e
    · exact opSafe_work_snoc e Act.httpList (by decide)
  · rcases search_trace_shape q ids mr e sr with h | h | h <;> rw [h]
    · exact opSafe_nil
    · exact opSafe_work e
    · exact opSafe_work_snoc e Act.httpSearch (by decide)
  · rcases fts_trace_shape ident e fr with h | h | h <;> rw [h]
    · exact opSafe_nil
    · exact opSafe_work e
    · exact opSafe_work_snoc e Act.httpEnableFts (by decide)
  · rcases fetch_trace_shape url pr with h | h <;> rw [h]
    · exact opSafe_nil
    · refine ⟨?_, ?_, ?_, ?_, ?_⟩ <;> simp [countA]

/-- Witness for C2: under the envW oracle the produced port 1234 comes
from the first discovery attempt. -/
theorem c2_lifecycle_once_witness :
    (get_dash_api_port envW.firstDisc).1 = Except.ok (some 1234) ∨
    (get_dash_api_port envW.secondDisc).1 = Except.ok (some 1234) :=
  (c2_lifecycle_once envW [] [] [] [] 1 (ListResp.ok []) (SearchResp.ok none [])
    FtsResp.okJson (FetchResp.ok none [])).2.2.2.2 1234 rfl

/-- Claim C3: a search_documentation call with a blank query, blank
docset_identifiers, or max_results outside 1..1000 returns the
corresponding validation error and performs no action at all: no
lifecycle step, no remediation, no network request. -/
theorem c3_search_validation (q ids : List Char) (mr : Int) (e : Env) (resp : SearchResp)
    (h : blankStr q = true ∨ blankStr ids = true ∨ mr < 1 ∨ 1000 < mr) :
    (search_documentation q ids mr e resp).2 = [] ∧
    (search_documentation q ids mr e resp).1.results = [] ∧
    (search_documentation q ids mr e resp).1.error =
      some (if blankStr q = true then emptyQueryMsg
            else if blankStr ids = true then emptyIdsMsg
            else rangeMsg) := by
  by_cases h1 : blankStr q = true
  · simp [search_documentation, h1]
  · by_cases h2 : blankStr ids = true
    · simp [search_documentation, h1, h2]
    · have h3 : mr < 1 ∨ 1000 < mr := by
        rcases h with h | h | h | h
        · exact absurd h h1
        · exact absurd h h2
        · exact Or.inl h
        · exact Or.inr h
      simp [search_documentation, h1, h2, h3]

/-- Witness for C3: searching with a space-only query returns the
empty-query error without any outbound action. -/
theorem c3_search_validation_witness :
    (search_documentation ((" ").toList) (("python3").toList) 100 envW
      (SearchResp.ok none [])).2 = [] ∧
    (search_documentation ((" ").toList) (("python3").toList) 100 envW
      (SearchResp.ok none [])).1.results = [] ∧
    (search_documentation ((" ").toList) (("python3").toList) 100 envW
      (SearchResp.ok none [])).1.error =
      some (if blankStr ((" ").toList) = true then emptyQueryMsg
            else if blankStr (("python3").toList) = true then emptyIdsMsg
            else rangeMsg) :=
  c3_search_validation ((" ").toList) (("python3").toList) 100 envW
    (SearchResp.ok none []) (Or.inl (by decide))

/-- Claim C4 (amended): discovery returns absent when the status record
is missing, fails to decode as JSON, or is an object without a port;
a present port is returned exactly when the health probe confirms it,
and a dead port yields absent. However, a record that decodes to a
non-object JSON value does not return absent: the port read raises an
uncaught AttributeError. -/
theorem c4_discovery (pr : Nat → Bool) (p : Nat) :
    (get_dash_api_port ⟨StatusRecord.missing, pr⟩).1 = Except.ok none ∧
    (get_dash_api_port ⟨StatusRecord.unparseable, pr⟩).1 = Except.ok none ∧
    (get_dash_api_port ⟨StatusRecord.object none, pr⟩).1 = Except.ok none ∧
    ((get_dash_api_port ⟨StatusRecord.object (some p), pr⟩).1 = Except.ok (some p) ↔
      pr p = true) ∧
    (pr p = false → (get_dash_api_port ⟨StatusRecord.object (some p), pr⟩).1 =
      Except.ok none) ∧
    (get_dash_api_port ⟨StatusRecord.nonObject, pr⟩).1 = Except.error () := by
  refine ⟨rfl, rfl, rfl, ?_, ?_, rfl⟩
  · cases hp : pr p <;> simp [get_dash_api_port, hp]
  · intro hp; simp [get_dash_api_port, hp]

/-- Witness for C4: a stale port (probe fails) is rejected. -/
theorem c4_discovery_witness :
    (get_dash_api_port ⟨StatusRecord.object (some 7), fun _ => false⟩).1 =
      Except.ok none :=
  (c4_discovery (fun _ => false) 7).2.2.2.2.1 rfl

/-- Counterexample for C4 as stated: on a malformed record that decodes
to a non-object JSON value (a state in which the record also lacks a
port field), discovery does not return absent. -/
theorem c4_discovery_counterexample :
    (get_dash_api_port ⟨StatusRecord.nonObject, fun _ => false⟩).1 ≠ Except.ok none :=
  fun h => nomatch h

/-- Claim C5 (amended): the whitespace post-processing is idempotent on
every input in which no space or tab sits immediately before a newline
or before the end of the text; on such inputs a second application
changes nothing. -/
theorem c5_postprocess_idem (l : List Char) (h : wsOk l = true) :
    postProcess (postProcess l) = postProcess l :=
  postProcess_idem_of_wsOk l h

/-- Witness for C5 on a concrete trailing-blank-free input. -/
theorem c5_postprocess_idem_witness :
    postProcess (postProcess (("a\n\nb").toList)) = postProcess (("a\n\nb").toList) :=
  c5_postprocess_idem (("a\n\nb").toList) (by decide)

/-- Counterexample for C5 as stated: a line holding only a space
between two blank lines defeats idempotence, because the
trailing-whitespace pass merges two newline runs after the collapse
pass already ran; the first application yields five lines with four
newlines, the second collapses them further. -/
theorem c5_postprocess_counterexample :
    postProcess (postProcess (("a\n\n \n\nb").toList)) ≠
      postProcess (("a\n\n \n\nb").toList) := by decide

/-- Claim C6 (amended): the weight estimate of a value is the sum, over
every string leaf reached recursively through nested lists and dicts,
dict keys included, of the character count divided by four rounding
down with a minimum of one unit, plus the same floor weight of the
rendered length of every non-string leaf. -/
theorem c6_estimate_leaves (v : PyVal) :
    estimate_tokens v =
      ((strLeaves v).map (fun s => floorWeight s.length)).sum +
      ((numLeaves v).map floorWeight).sum :=
  est_eq_spec v

/-- Counterexample for C6 as stated: the claim rounds the character
count up, the code rounds it down, so a five-character string weighs
one unit in the code where the claim demands two. -/
theorem c6_estimate_counterexample :
    estimate_tokens (PyVal.str (("abcde").toList)) = 1 ∧
    ceilWeight (("abcde").toList).length = 2 := by decide

/-! ### Error-mapping lemmas (claim C7) -/

theorem startsWithS_refl : ∀ (n : List Char), startsWithS n n = true := by
  intro n
  induction n with
  | nil => rfl
  | cons a t ih => simp [startsWithS, ih]

theorem containsS_self : ∀ (n : List Char), containsS n n = true := by
  intro n
  cases n with
  | nil => rfl
  | cons a t => simp [containsS, startsWithS_refl]

theorem containsS_append_self : ∀ (u n : List Char), containsS n (u ++ n) = true := by
  intro u n
  induction u with
  | nil => simpa using containsS_self n
  | cons a t ih =>
    simp only [List.cons_append, containsS]
    simp [ih]

theorem containsS_tail_msg (pre mid : List Char) :
    containsS verifyCore (pre ++ mid ++ verifyTail) = true := by
  have h : pre ++ mid ++ verifyTail = (pre ++ mid ++ (". ").toList) ++ verifyCore := by
    simp [verifyTail]
  rw [h]
  exact containsS_append_self _ _

theorem search_http_error (q ids : List Char) (mr : Int) (e : Env)
    (status : Nat) (body exnText : List Char) (p : Nat)
    (hq : blankStr q = false) (hi : blankStr ids = false)
    (hm : ¬(mr < 1 ∨ 1000 < mr))
    (hw : (working_api_base_url e).1 = Except.ok (some p)) :
    (search_documentation q ids mr e (SearchResp.httpError status body exnText)).1.error =
      some (searchErrorMsg status body exnText) := by
  simp [search_documentation, hq, hi, hm, hw]

/-- Claim C7 (amended): when the upstream search endpoint answers 400
with a body containing both the phrase naming a docset identifier and
the phrase not found, the returned error is the specific
unknown-docset message; a 400 body containing only one of the two is
not enough. For any 4xx or 5xx answer whose body matches none of the
known phrases, the returned error contains the generic instruction to
verify that Dash is running with its API server enabled. -/
theorem c7_error_mapping (q ids body exnText : List Char) (mr : Int) (e : Env)
    (status : Nat) (p : Nat)
    (hq : blankStr q = false) (hi : blankStr ids = false)
    (hm : ¬(mr < 1 ∨ 1000 < mr))
    (hw : (working_api_base_url e).1 = Except.ok (some p))
    (_hs4 : 400 ≤ status) (_hs6 : status < 600) :
    ((status = 400 ∧ containsS docsetIdPhrase body = true ∧
        containsS notFoundPhrase body = true) →
      (search_documentation q ids mr e
        (SearchResp.httpError status body exnText)).1.error = some unknownDocsetMsg) ∧
    ((¬(containsS docsetIdPhrase body = true ∧ containsS notFoundPhrase body = true) ∧
        containsS noDocsetsPhrase body = false ∧ containsS trialPhrase body = false) →
      ∃ m, (search_documentation q ids mr e
          (SearchResp.httpError status body exnText)).1.error = some m ∧
        containsS verifyCore m = true) := by
  rw [search_http_error q ids mr e status body exnText p hq hi hm hw]
  constructor
  · rintro ⟨hst, h1, h2⟩
    rw [hst]
    simp [searchErrorMsg, h1, h2]
  · rintro ⟨h12, hno, htr⟩
    by_cases h400 : status = 400
    · refine ⟨("Bad request: ").toList ++ body ++ verifyTail, ?_, ?_⟩
      · rw [h400]; simp [searchErrorMsg, h12, hno]
      · exact containsS_tail_msg _ body
    · by_cases h403 : status = 403
      · refine ⟨("Forbidden: ").toList ++ body ++ verifyTail, ?_, ?_⟩
        · rw [h403]; simp [searchErrorMsg, htr]
        · exact containsS_tail_msg _ body
      · refine ⟨("HTTP error: ").toList ++ exnText ++ verifyTail, ?_, ?_⟩
        · simp [searchErrorMsg, h400, h403]
        · exact containsS_tail_msg _ exnText

/-- Witness for C7: a 400 body naming a bogus docset identifier maps to
the unknown-docset message. -/
theorem c7_error_mapping_witness :
    (search_documentation (("q").toList) (("python3").toList) 100 envW
      (SearchResp.httpError 400
        (("Docset with identifier bogus not found").toList) [])).1.error =
      some unknownDocsetMsg :=
  (c7_error_mapping (("q").toList) (("python3").toList)
    (("Docset with identifier bogus not found").toList) [] 100 envW 400 1234
    (by decide) (by decide) (by decide) rfl (by decide) (by decide)).1
    ⟨rfl, by decide, by decide⟩

/-- Counterexample for C7 as stated: a 400 body containing the phrase
not found but not the docset-identifier phrase falls through to the
generic bad-request message, not to the unknown-docset message. -/
theorem c7_error_mapping_counterexample :
    (search_documentation (("q").toList) (("python3").toList) 100 envW
      (SearchResp.httpError 400 (("not found").toList) [])).1.error ≠
      some unknownDocsetMsg := by decide

/-- Claim C8 (amended): for converted text without a space or tab
immediately before a newline or before the end (in particular whenever
every blank line is truly empty), the post-processed content has no
run of three consecutive newlines, hence no run of more than one
consecutive blank line; for every converted text the output carries no
trailing space or tab on any line and is fully trimmed; and the
element-removal pass leaves no script, style, nav or header element in
the tree handed to the converter. -/
theorem c8_sanitized_output (conv : List Char) (h : wsOk conv = true)
    (t u : Html) (hc : cleanNode t = some u) :
    nlOk (postProcess conv) = true ∧
    wsOk (postProcess conv) = true ∧
    pyStrip (postProcess conv) = postProcess conv ∧
    noUnwanted u = true :=
  ⟨postProcess_nlOk_of_wsOk conv h, postProcess_wsOk conv,
   postProcess_strip_twice conv, cleanNode_sound t u hc⟩

/-- Witness for C8 at a concrete conversion output and a concrete
kept element. -/
theorem c8_sanitized_output_witness :
    nlOk (postProcess (("a\n\nb").toList)) = true ∧
    wsOk (postProcess (("a\n\nb").toList)) = true ∧
    pyStrip (postProcess (("a\n\nb").toList)) = postProcess (("a\n\nb").toList) ∧
    noUnwanted (Html.elem (("div").toList) []) = true :=
  c8_sanitized_output (("a\n\nb").toList) (by decide)
    (Html.elem (("div").toList) []) (Html.elem (("div").toList) []) rfl

/-- Counterexample for C8 as stated: when the converted text carries a
space-only line between blank lines, the returned content keeps a run
of four newlines, that is three consecutive blank lines. -/
theorem c8_sanitized_output_counterexample :
    (fetch_documentation_content (("u").toList)
      (FetchResp.ok none (("a\n\n \n\nb").toList))).1.content =
      ("a\n\n\n\nb").toList ∧
    nlOk (("a\n\n\n\nb").toList) = false := by decide

/-- Claim C9 (amended): enable_docset_fts returns True exactly when the
identifier is non-blank, a working base url was obtained, and the
request came back with a success status and a JSON-decodable body (the
decoded body is then discarded); every other outcome, including a
success status whose body fails to parse as JSON, returns False and no
exception escapes. -/
theorem c9_enable_fts (ident : List Char) (e : Env) (resp : FtsResp) :
    (enable_docset_fts ident e resp).1 = true ↔
      (blankStr ident = false ∧
        (∃ p, (working_api_base_url e).1 = Except.ok (some p)) ∧
        resp = FtsResp.okJson) := by
  cases hb : blankStr ident with
  | true => simp [enable_docset_fts, hb]
  | false =>
    simp only [enable_docset_fts, hb, Bool.false_eq_true, if_false]
    rcases hw : (working_api_base_url e).1 with u | v
    · simp [hw]
    · cases v with
      | none => simp [hw]
      | some p =>
        cases resp with
        | exn m => simp [hw]
        | httpError s b => simp [hw]
        | okJson => simp [hw]
        | badJson => simp [hw]

/-- Counterexample for C9 as stated: a success response whose body is
not JSON returns False although the identifier is non-blank, a base
url was obtained and the status was success-class. -/
theorem c9_enable_fts_counterexample :
    (enable_docset_fts (("x").toList) envW FtsResp.badJson).1 = false ∧
    (working_api_base_url envW).1 = Except.ok (some 1234) ∧
    blankStr (("x").toList) = false :=
  ⟨rfl, rfl, rfl⟩

/-- Claim C10: fetch_documentation_content echoes the requested
locator unchanged on every path, and on every error path (blank
locator, HTTP error status, any other failure) it returns the Error
title, empty content and a non-empty error message, with every
exception absorbed into the returned value. -/
theorem c10_fetch_contract (url : List Char) (resp : FetchResp) :
    (fetch_documentation_content url resp).1.load_url = url ∧
    ((blankStr url = true ∨ ∀ t c, resp ≠ FetchResp.ok t c) →
      (fetch_documentation_content url resp).1.title = ("Error").toList ∧
      (fetch_documentation_content url resp).1.content = [] ∧
      ∃ m, (fetch_documentation_content url resp).1.error = some m ∧ m ≠ []) := by
  by_cases hb : blankStr url = true
  · refine ⟨by simp [fetch_documentation_content, hb], fun _ => ?_⟩
    simp [fetch_documentation_content, hb]
  · cases resp with
    | exn m =>
      refine ⟨by simp [fetch_documentation_content, hb], fun _ => ?_⟩
      simp [fetch_documentation_content, hb]
    | httpError status statusText =>
      refine ⟨by simp [fetch_documentation_content, hb], fun _ => ?_⟩
      simp [fetch_documentation_content, hb]
    | ok t c =>
      refine ⟨by simp [fetch_documentation_content, hb], fun hpath => ?_⟩
      rcases hpath with hpath | hpath
      · exact absurd hpath hb
      · exact absurd rfl (hpath t c)

/-- Witness for C10 on the blank-locator error path. -/
theorem c10_fetch_contract_witness :
    (fetch_documentation_content ((" ").toList) (FetchResp.exn [])).1.title =
      ("Error").toList ∧
    (fetch_documentation_content ((" ").toList) (FetchResp.exn [])).1.content = [] ∧
    ∃ m, (fetch_documentation_content ((" ").toList) (FetchResp.exn [])).1.error =
      some m ∧ m ≠ [] :=
  (c10_fetch_contract ((" ").toList) (FetchResp.exn [])).2 (Or.inl (by decide))
